import Mathlib

/-!
Verification of the StageLP-WSOP water-supply-portfolio models.

The repository consists of four declarative Pyomo model definitions:
  * src/models/two_stage_deterministic/two_stage_concrete.py
  * src/models/two_stage_deterministic_abstract/two_stage_deterministic.py
  * src/models/three_stage_scenarios/three_stage_scenario.py
  * src/models/three_stage_stochastic/three_stage.py

This file gives a shallow embedding of the constraint systems, cost
expressions, scenario-tree construction and scenario-instantiation
callbacks of those files, and proves or refutes the frozen claims about
them.  Pyomo real quantities are embedded as rationals; JSON dictionaries
are embedded as association lists over String keys, with lookup failure
(a Python KeyError) modelled by Option.
-/

/-- Lookup in an association list, mirroring a Python dict access
d[k]: the result is none exactly when the key is absent (a KeyError). -/
def alookup {β : Type} : List (String × β) → String → Option β
  | [], _ => none
  | (a, b) :: t, k => if a = k then some b else alookup t k

/-- Key list of an association list (Python dict iteration order). -/
def keys {β : Type} (l : List (String × β)) : List String :=
  l.map (fun kv => kv.1)

/-- Total lookup used inside constraint bodies once the model is known to
build: at absent keys Python would have raised, so the default is never
reached in the situations the theorems quantify over. -/
def qlook (l : List (String × ℚ)) (k : String) : ℚ :=
  (alookup l k).getD 0

/-- Sum of a rational-valued function over an index list; embeds the
Pyomo quicksum / sum_product expressions over a Set. -/
def dsum (l : List String) (f : String → ℚ) : ℚ :=
  (l.map f).sum

theorem dsum_add (l : List String) (f g : String → ℚ) :
    dsum l (fun i => f i + g i) = dsum l f + dsum l g := by
  induction l with
  | nil => simp [dsum]
  | cons a t ih => simp [dsum] at ih ⊢; linarith

theorem dsum_congr (l : List String) (f g : String → ℚ)
    (h : ∀ i ∈ l, f i = g i) : dsum l f = dsum l g := by
  induction l with
  | nil => rfl
  | cons a t ih =>
      have h1 : f a = g a := h a (by simp)
      have h2 : dsum t f = dsum t g := ih (fun i hi => h i (by simp [hi]))
      simp only [dsum, List.map_cons, List.sum_cons] at h2 ⊢
      rw [h1, h2]

/-!
## Three-stage scenario model
(src/models/three_stage_scenarios/three_stage_scenario.py)

The JSON data dictionary supplies the maps LT_MAX, LT_QF, C_LT, MT_MAX,
C_MT, ST_MAX, C_ST; the index sets LT, MT, ST are the key lists of
LT_MAX, MT_MAX, ST_MAX (lines 32-50 of the source).  SHORTAGE_Q is a
mutable scalar parameter at the single index SH, initialized 0.0 and
overwritten per scenario; it is passed explicitly below.
-/

structure ScenData where
  LT_MAX : List (String × ℚ)
  LT_QF : List (String × ℚ)
  C_LT : List (String × ℚ)
  MT_MAX : List (String × ℚ)
  C_MT : List (String × ℚ)
  ST_MAX : List (String × ℚ)
  C_ST : List (String × ℚ)

/-- model.LT = keys of data LT_MAX (three_stage_scenario.py line 32). -/
def ScenData.LT (d : ScenData) : List String := keys d.LT_MAX

/-- model.MT = keys of data MT_MAX (three_stage_scenario.py line 40). -/
def ScenData.MT (d : ScenData) : List String := keys d.MT_MAX

/-- model.ST = keys of data ST_MAX (three_stage_scenario.py line 46). -/
def ScenData.ST (d : ScenData) : List String := keys d.ST_MAX

/-- An assignment of the three variable families of the three-stage
scenario model (LT_ACTION, MT_EXP, ST_Q), as total maps from names. -/
structure ScenAsg where
  LT_ACTION : String → ℚ
  MT_EXP : String → ℚ
  ST_Q : String → ℚ

/-- Variable domains of three_stage_scenario.py lines 63-73:
LT_ACTION is a nonnegative integer (den = 1 captures integrality of a
rational), MT_EXP is a percent fraction in [0,1], ST_Q is nonnegative. -/
def ScenVarBounds (d : ScenData) (a : ScenAsg) : Prop :=
  (∀ i ∈ d.LT, 0 ≤ a.LT_ACTION i ∧ (a.LT_ACTION i).den = 1) ∧
  (∀ j ∈ d.MT, 0 ≤ a.MT_EXP j ∧ a.MT_EXP j ≤ 1) ∧
  (∀ k ∈ d.ST, 0 ≤ a.ST_Q k)

/-- MeetShortage_rule (three_stage_scenario.py lines 79-85):
lt_q = sum_product(LT_QF, LT_ACTION), mt_q = sum over LT of
LT_QF[i]*LT_ACTION[i]*MT_EXP[i], st_q = sum over ST of ST_Q[k];
the constraint is lt_q + mt_q + st_q >= SHORTAGE_Q[SH]. -/
def ScenMeetShortage (d : ScenData) (sq : ℚ) (a : ScenAsg) : Prop :=
  dsum d.LT (fun i => qlook d.LT_QF i * a.LT_ACTION i)
    + dsum d.LT (fun i => qlook d.LT_QF i * a.LT_ACTION i * a.MT_EXP i)
    + dsum d.ST (fun k => a.ST_Q k) ≥ sq

/-- LongTermMax_rule (lines 87-89). -/
def ScenLongTermMax (d : ScenData) (a : ScenAsg) : Prop :=
  ∀ i ∈ d.LT, a.LT_ACTION i ≤ qlook d.LT_MAX i

/-- MidTermMax_rule (lines 91-93). -/
def ScenMidTermMax (d : ScenData) (a : ScenAsg) : Prop :=
  ∀ j ∈ d.MT, a.MT_EXP j ≤ qlook d.MT_MAX j

/-- MidTermLSRetro_rule (lines 95-98):
lt_retro * MT_EXP[LS_RETRO] + lt_retro <= LT_MAX[LS_RETRO]. -/
def ScenMidTermLSRetro (d : ScenData) (a : ScenAsg) : Prop :=
  a.LT_ACTION ("LS_RETRO") * a.MT_EXP ("LS_RETRO") + a.LT_ACTION ("LS_RETRO")
    ≤ qlook d.LT_MAX ("LS_RETRO")

/-- ShortTermMax_rule (lines 100-102). -/
def ScenShortTermMax (d : ScenData) (a : ScenAsg) : Prop :=
  ∀ k ∈ d.ST, a.ST_Q k ≤ qlook d.ST_MAX k

/-- ShortTermRestrict_rule (lines 104-108):
ST_Q[LS_RESTRICT]/LT_QF[LS_RETRO] + lt_retro*MT_EXP[LS_RETRO] + lt_retro
<= LT_MAX[LS_RETRO].  (Rational division is total; the source would
raise ZeroDivisionError at LT_QF[LS_RETRO] = 0, a case no theorem below
relies on.) -/
def ScenShortTermRestrict (d : ScenData) (a : ScenAsg) : Prop :=
  a.ST_Q ("LS_RESTRICT") / qlook d.LT_QF ("LS_RETRO")
      + a.LT_ACTION ("LS_RETRO") * a.MT_EXP ("LS_RETRO")
      + a.LT_ACTION ("LS_RETRO")
    ≤ qlook d.LT_MAX ("LS_RETRO")

/-- LTOption_rule (lines 110-112). -/
def ScenLTOption (a : ScenAsg) : Prop :=
  a.ST_Q ("EX_LT_OPTION") ≤ a.LT_ACTION ("OPTION")

/-- MTOption_rule (lines 114-117). -/
def ScenMTOption (a : ScenAsg) : Prop :=
  a.ST_Q ("EX_MT_OPTION") ≤ a.LT_ACTION ("OPTION") * a.MT_EXP ("OPTION")

/-- Nonnegativity constraints (lines 119-129). -/
def ScenNonNeg (d : ScenData) (a : ScenAsg) : Prop :=
  (∀ k ∈ d.ST, a.ST_Q k ≥ 0) ∧ (∀ j ∈ d.MT, a.MT_EXP j ≥ 0) ∧
  (∀ i ∈ d.LT, a.LT_ACTION i ≥ 0)

/-- The full constraint system of the three-stage scenario model at a
given SHORTAGE_Q value sq: variable domains plus every Constraint
component of three_stage_scenario.py. -/
def ScenFeasible (d : ScenData) (sq : ℚ) (a : ScenAsg) : Prop :=
  ScenVarBounds d a ∧ ScenMeetShortage d sq a ∧ ScenLongTermMax d a ∧
  ScenMidTermMax d a ∧ ScenMidTermLSRetro d a ∧ ScenShortTermMax d a ∧
  ScenShortTermRestrict d a ∧ ScenLTOption a ∧ ScenMTOption a ∧
  ScenNonNeg d a

/-- ComputeSecondStageCost_rule (lines 139-141): sum over LT of
C_MT[i]*MT_EXP[i]*LT_ACTION[i]*LT_QF[i] plus sum over LT of
1000*MT_EXP[i]. -/
def ScenSecondStageCost (d : ScenData) (a : ScenAsg) : ℚ :=
  dsum d.LT (fun i => qlook d.C_MT i * a.MT_EXP i * a.LT_ACTION i * qlook d.LT_QF i)
    + dsum d.LT (fun i => 1000 * a.MT_EXP i)

/-- Concrete data used to refute claim C1: one long-term action LS_RETRO
with yield factor 1, no mid-term or short-term entries. -/
def c1Data : ScenData :=
  ⟨[(("LS_RETRO"), 1)], [(("LS_RETRO"), 1)], [(("LS_RETRO"), 0)],
   [(("LS_RETRO"), 1)], [(("LS_RETRO"), 0)], [], []⟩

/-- Assignment used to refute claim C1: LT_ACTION = 1 everywhere,
MT_EXP = 0, ST_Q = 0. -/
def c1Asg : ScenAsg := ⟨fun _ => 1, fun _ => 0, fun _ => 0⟩

/-- Claim C1 counterexample.  The claim states that MeetShortage holds
exactly when the bilinear sum LT_QF[i]*LT_ACTION[i]*MT_EXP[i] plus the
short-term sum reaches SHORTAGE_Q[SH].  With LT_ACTION[LS_RETRO] = 1,
MT_EXP = 0, ST_Q = 0 and SHORTAGE_Q = 1 the source constraint holds
(its linear first-stage yield term lt_q = 1 covers the shortage) while
the claimed right-hand side is 0 + 0 < 1, so the equivalence fails. -/
theorem c1_meetShortage_not_bilinear_only :
    ¬ (ScenMeetShortage c1Data 1 c1Asg ↔
        dsum c1Data.LT (fun i => qlook c1Data.LT_QF i * c1Asg.LT_ACTION i * c1Asg.MT_EXP i)
          + dsum c1Data.ST (fun k => c1Asg.ST_Q k) ≥ 1) := by
  simp [ScenMeetShortage, c1Data, c1Asg, ScenData.LT, ScenData.ST,
    dsum, qlook, alookup, keys]

/-- Claim C1, amended.  The MeetShortage constraint of the three-stage
scenario model accounts each long-term action with the effective yield
LT_QF[i]*LT_ACTION[i]*(1 + MT_EXP[i]) (the linear first-stage yield plus
the bilinear mid-term term): for every data set, SHORTAGE_Q value and
assignment, the constraint holds exactly when the sum over i in LT of
LT_QF[i]*LT_ACTION[i]*(1 + MT_EXP[i]) plus the sum over k in ST of
ST_Q[k] is at least SHORTAGE_Q[SH]. -/
theorem c1_meetShortage_amended (d : ScenData) (sq : ℚ) (a : ScenAsg) :
    ScenMeetShortage d sq a ↔
      dsum d.LT (fun i => qlook d.LT_QF i * a.LT_ACTION i * (1 + a.MT_EXP i))
        + dsum d.ST (fun k => a.ST_Q k) ≥ sq := by
  unfold ScenMeetShortage
  have h : dsum d.LT (fun i => qlook d.LT_QF i * a.LT_ACTION i * (1 + a.MT_EXP i))
      = dsum d.LT (fun i => qlook d.LT_QF i * a.LT_ACTION i)
        + dsum d.LT (fun i => qlook d.LT_QF i * a.LT_ACTION i * a.MT_EXP i) := by
    rw [← dsum_add]
    exact dsum_congr _ _ _ (fun i _ => by ring)
  rw [h]

/-- Concrete data used to refute claim C2: actions LS_RETRO, OPTION with
LT_MAX[LS_RETRO] = 1/2, all yield factors 1, mid-term caps 1, and the
three short-term actions the model references. -/
def c2Data : ScenData :=
  ⟨[(("LS_RETRO"), 1/2), (("OPTION"), 1)],
   [(("LS_RETRO"), 1), (("OPTION"), 1)],
   [(("LS_RETRO"), 0), (("OPTION"), 0)],
   [(("LS_RETRO"), 1), (("OPTION"), 1)],
   [(("LS_RETRO"), 0), (("OPTION"), 0)],
   [(("LS_RESTRICT"), 1), (("EX_LT_OPTION"), 1), (("EX_MT_OPTION"), 1)],
   [(("LS_RESTRICT"), 0), (("EX_LT_OPTION"), 0), (("EX_MT_OPTION"), 0)]⟩

/-- Assignment used to refute claim C2: all variables 0 except the
exploitation fraction MT_EXP[LS_RETRO] = 1. -/
def c2Asg : ScenAsg :=
  ⟨fun _ => 0, fun i => if i = "LS_RETRO" then 1 else 0, fun _ => 0⟩

/-- Claim C2 counterexample.  The claim reads the coupling as bounding
LT_ACTION[LS_RETRO] + MT_EXP[LS_RETRO] + ST_Q[LS_RESTRICT]/LT_QF[LS_RETRO]
by LT_MAX[LS_RETRO].  The assignment with every variable 0 except
MT_EXP[LS_RETRO] = 1 satisfies every constraint of the model at
SHORTAGE_Q = 0 (the source constraint multiplies the fraction by the
long-term action, so its left side is 0), yet the claimed sum equals
1 > 1/2 = LT_MAX[LS_RETRO]. -/
theorem c2_fraction_sum_exceeds_max :
    ScenFeasible c2Data 0 c2Asg ∧
      c2Asg.LT_ACTION ("LS_RETRO") + c2Asg.MT_EXP ("LS_RETRO")
          + c2Asg.ST_Q ("LS_RESTRICT") / qlook c2Data.LT_QF ("LS_RETRO")
        > qlook c2Data.LT_MAX ("LS_RETRO") := by
  constructor
  · simp [ScenFeasible, ScenVarBounds, ScenMeetShortage, ScenLongTermMax,
      ScenMidTermMax, ScenMidTermLSRetro, ScenShortTermMax, ScenShortTermRestrict,
      ScenLTOption, ScenMTOption, ScenNonNeg, ScenData.LT, ScenData.MT, ScenData.ST,
      c2Data, c2Asg, dsum, qlook, alookup, keys, String.reduceEq]
  · simp [c2Data, c2Asg, qlook, alookup, String.reduceEq]
    norm_num

/-- Claim C2, amended.  In the three-stage scenario model, for every
variable assignment satisfying the model's constraints, the sum of the
LS_RETRO long-term action, the product of that action with its mid-term
exploitation fraction, and the LS_RESTRICT short-term action scaled by
the inverse of LT_QF[LS_RETRO] does not exceed LT_MAX[LS_RETRO];
equivalently, the model is infeasible whenever an input forces the sum
of these three terms above LT_MAX[LS_RETRO]. -/
theorem c2_retro_coupling_amended (d : ScenData) (sq : ℚ) (a : ScenAsg)
    (h : ScenFeasible d sq a) :
    a.LT_ACTION ("LS_RETRO")
        + a.LT_ACTION ("LS_RETRO") * a.MT_EXP ("LS_RETRO")
        + a.ST_Q ("LS_RESTRICT") / qlook d.LT_QF ("LS_RETRO")
      ≤ qlook d.LT_MAX ("LS_RETRO") := by
  have hr := h.2.2.2.2.2.2.1
  unfold ScenShortTermRestrict at hr
  linarith

/-- Witness for the amended claim C2: the all-zero assignment is feasible
for the c2Data data set at SHORTAGE_Q = 0, and the amended bound holds
there. -/
theorem c2_retro_coupling_amended_witness :
    ScenFeasible c2Data 0 (ScenAsg.mk (fun _ => 0) (fun _ => 0) (fun _ => 0)) ∧
      (ScenAsg.mk (fun _ => 0) (fun _ => 0) (fun _ => 0)).LT_ACTION ("LS_RETRO")
          + (ScenAsg.mk (fun _ => 0) (fun _ => 0) (fun _ => 0)).LT_ACTION ("LS_RETRO")
            * (ScenAsg.mk (fun _ => 0) (fun _ => 0) (fun _ => 0)).MT_EXP ("LS_RETRO")
          + (ScenAsg.mk (fun _ => 0) (fun _ => 0) (fun _ => 0)).ST_Q ("LS_RESTRICT")
            / qlook c2Data.LT_QF ("LS_RETRO")
        ≤ qlook c2Data.LT_MAX ("LS_RETRO") := by
  have hfeas : ScenFeasible c2Data 0 (ScenAsg.mk (fun _ => 0) (fun _ => 0) (fun _ => 0)) := by
    simp [ScenFeasible, ScenVarBounds, ScenMeetShortage, ScenLongTermMax,
      ScenMidTermMax, ScenMidTermLSRetro, ScenShortTermMax, ScenShortTermRestrict,
      ScenLTOption, ScenMTOption, ScenNonNeg, ScenData.LT, ScenData.MT, ScenData.ST,
      c2Data, dsum, qlook, alookup, keys, String.reduceEq]
  exact ⟨hfeas, c2_retro_coupling_amended c2Data 0 _ hfeas⟩

/-- Claim C4.  The second-stage cost expression of the three-stage
scenario model equals, for every data set and assignment, the sum over
i in LT of C_MT[i]*MT_EXP[i]*LT_ACTION[i]*LT_QF[i] + 1000*MT_EXP[i],
with the flat overhead coefficient 1000 exactly as written in the
source. -/
theorem c4_second_stage_cost (d : ScenData) (a : ScenAsg) :
    ScenSecondStageCost d a =
      dsum d.LT (fun i =>
        qlook d.C_MT i * a.MT_EXP i * a.LT_ACTION i * qlook d.LT_QF i
          + 1000 * a.MT_EXP i) := by
  unfold ScenSecondStageCost
  rw [dsum_add]

/-!
## Three-stage stochastic model
(src/models/three_stage_stochastic/three_stage.py)
Sets (lines 51-55): LT, LT_EXP, ST, SHORT from the JSON data.
-/

/-- Index sets of the three-stage stochastic model; the MeetShortage
constraint only quantifies over ST, LT_EXP and SHORT (the long-term
contribution is the single RETRO action). -/
structure StochSets where
  LT_EXP : List String
  ST : List String
  SHORT : List String

/-- An assignment of the variable families of three_stage.py
(lines 103-122) that appear in the MeetShortage constraint. -/
structure StochAsg where
  LT_ACTION : String → ℚ
  ST_ACTION : String → ℚ
  LT_EXP_PERMIT_ACTION : String → ℚ
  EXP_VOP_ACTION : String → ℚ
  SHORT_ACTION : String → ℚ

/-- MeetShortage_rule (three_stage.py lines 154-160):
lt_q = LT_ACTION[RETRO]; exp_vop_q = sum over LT_EXP of
EXP_VOP_ACTION[i]*LT_EXP_PERMIT_ACTION[i]; st_q = sum over ST of
ST_ACTION[i]; short_q = sum over the SHORT_ACTION variable (whose index
set is SHORT) of SHORT_ACTION[i]; the constraint is
lt_q + st_q + exp_vop_q + short_q >= SHORTAGE_Q[SH]. -/
def StochMeetShortage (s : StochSets) (sq : ℚ) (a : StochAsg) : Prop :=
  a.LT_ACTION ("RETRO")
    + dsum s.ST (fun i => a.ST_ACTION i)
    + dsum s.LT_EXP (fun i => a.EXP_VOP_ACTION i * a.LT_EXP_PERMIT_ACTION i)
    + dsum s.SHORT (fun i => a.SHORT_ACTION i) ≥ sq

/-- Claim C3.  In the three-stage stochastic model the MeetShortage
constraint holds exactly when the long-term retrofit contribution
LT_ACTION[RETRO], plus the sum of all short-term actions, plus the sum
over expansion sites of the variable-operation expansion yield gated by
the binary permit variable, plus the sum of the explicit shortage
bucket, reaches SHORTAGE_Q[SH]. -/
theorem c3_stoch_meetShortage (s : StochSets) (sq : ℚ) (a : StochAsg) :
    StochMeetShortage s sq a ↔
      a.LT_ACTION ("RETRO") + (s.ST.map a.ST_ACTION).sum
          + (s.LT_EXP.map (fun i => a.EXP_VOP_ACTION i * a.LT_EXP_PERMIT_ACTION i)).sum
          + (s.SHORT.map a.SHORT_ACTION).sum
        ≥ sq := by
  unfold StochMeetShortage dsum
  rfl

/-!
## Piecewise marginal-cost rule of the three-stage stochastic model
(three_stage.py lines 136-142).  The per-site economic data carries the
power-law exponent p and the multiplier; Python float exponentiation
x**(p-1) is embedded as an explicit partial operation pw, so that the
behaviour of the rule is established for every exponentiation operator
defined at least on the nonzero bases (float ** raises ZeroDivisionError
at base 0 with a negative exponent, which is exactly the case the rule
guards against).
-/

/-- Per-site expansion parameters read from data[LT_EXP][site]. -/
structure ExpParams where
  p : ℚ
  multiplier : ℚ

/-- scale_marginal (three_stage.py lines 136-142): returns 0 when
LT_EXP_ACTION == 0, and otherwise p * mult * LT_EXP_ACTION**(p-1) where
p and mult are looked up in the data dictionary for the site.  Lookup
failure and failure of the exponentiation are modelled as none. -/
def scale_marginal (ltExp : List (String × ExpParams)) (pw : ℚ → ℚ → Option ℚ)
    (site : String) (x : ℚ) : Option ℚ :=
  if x = 0 then some 0
  else
    match alookup ltExp site with
    | none => none
    | some par =>
        match pw x (par.p - 1) with
        | none => none
        | some y => some (par.p * par.multiplier * y)

/-- Claim C10.  The piecewise marginal-cost rule is total on nonnegative
inputs: for every expansion site present in the data and every
LT_EXP_ACTION >= 0 it returns a value, returning exactly 0 at 0 and
p*mult*LT_EXP_ACTION^(p-1) otherwise, and the power operation is never
evaluated at base 0 (the result does not depend on the value, if any,
of the exponentiation at base 0). -/
theorem c10_scale_marginal_total (ltExp : List (String × ExpParams))
    (pw : ℚ → ℚ → Option ℚ) (site : String) (x : ℚ) (par : ExpParams)
    (hsite : alookup ltExp site = some par)
    (hpw : ∀ a b : ℚ, a ≠ 0 → ∃ y, pw a b = some y)
    (hx : 0 ≤ x) :
    (∃ z, scale_marginal ltExp pw site x = some z) ∧
    (x = 0 → scale_marginal ltExp pw site x = some 0) ∧
    (∀ y, pw x (par.p - 1) = some y → x ≠ 0 →
        scale_marginal ltExp pw site x = some (par.p * par.multiplier * y)) ∧
    (∀ pw' : ℚ → ℚ → Option ℚ, (∀ a b : ℚ, a ≠ 0 → pw' a b = pw a b) →
        scale_marginal ltExp pw' site x = scale_marginal ltExp pw site x) := by
  by_cases h0 : x = 0
  · subst h0
    refine ⟨⟨0, by simp [scale_marginal]⟩, fun _ => by simp [scale_marginal],
      fun y _ hne => absurd rfl hne, fun pw' _ => by simp [scale_marginal]⟩
  · obtain ⟨y, hy⟩ := hpw x (par.p - 1) h0
    refine ⟨⟨par.p * par.multiplier * y, by simp [scale_marginal, h0, hsite, hy]⟩,
      fun h => absurd h h0,
      fun z hz _ => by simp [scale_marginal, h0, hsite, hz],
      fun pw' hagree => by simp [scale_marginal, h0, hsite, hagree x (par.p - 1) h0]⟩

/-- Exponentiation operator used in the C10 witness: defined at every
nonzero base, undefined at base 0 (as float ** with a negative exponent
would be). -/
def c10pw : ℚ → ℚ → Option ℚ :=
  fun a b => if a = 0 then none else some (a + b)

/-- Expansion-site data used in the C10 witness. -/
def c10Data : List (String × ExpParams) := [(("PROJ_A"), ⟨3/5, 2⟩)]

/-- Witness for claim C10 at site PROJ_A with LT_EXP_ACTION = 3. -/
theorem c10_scale_marginal_total_witness :
    (∃ z, scale_marginal c10Data c10pw ("PROJ_A") 3 = some z) ∧
      scale_marginal c10Data c10pw ("PROJ_A") 3
        = some ((3:ℚ)/5 * 2 * (3 + ((3:ℚ)/5 - 1))) := by
  have h := c10_scale_marginal_total c10Data c10pw ("PROJ_A") 3 ⟨3/5, 2⟩
    (by simp [c10Data, alookup])
    (fun a b ha => ⟨a + b, by simp [c10pw, ha]⟩)
    (by norm_num)
  exact ⟨h.1, h.2.2.1 (3 + ((3:ℚ)/5 - 1)) (by norm_num [c10pw]) (by norm_num)⟩

/-!
## Two-stage deterministic model
(src/models/two_stage_deterministic/two_stage_concrete.py) and its
abstract counterpart
(src/models/two_stage_deterministic_abstract/two_stage_deterministic.py).

The two files share the data shape: LT_MAX, LT_QF, C_LT over long-term
actions, ST_MAX, C_ST over short-term actions, and the scalar shortage
requirement SHORTAGE_Q[SH].  model.LT = keys of LT_MAX,
model.ST = keys of ST_MAX (two_stage_concrete.py lines 31-43).
-/

structure TwoStageData where
  LT_MAX : List (String × ℚ)
  LT_QF : List (String × ℚ)
  C_LT : List (String × ℚ)
  ST_MAX : List (String × ℚ)
  C_ST : List (String × ℚ)

/-- model.LT = keys of data LT_MAX (two_stage_concrete.py line 31). -/
def TwoStageData.LT (d : TwoStageData) : List String := keys d.LT_MAX

/-- model.ST = keys of data ST_MAX (two_stage_concrete.py line 39). -/
def TwoStageData.ST (d : TwoStageData) : List String := keys d.ST_MAX

/-- Key accesses performed while the concrete two-stage model is
constructed; each conjunct mirrors a dictionary or variable-index access
that raises KeyError when the key is absent:
LT_QF[i] for i in LT (MeetShortage_rule, line 70); C_LT[i] and C_ST[j]
(cost rules, lines 101-107); ST_Q[LS_RESTRICT], LT_MAX[LS_RETRO] and
LT_ACTION[LS_RETRO] (ShortTermRestrict_rule, line 82); ST_Q[EX_OPTION]
and LT_ACTION[OPTION] (ShortTermOption_rule, line 86).  The model object
exists only when this returns true. -/
def twoStageBuilds (d : TwoStageData) : Bool :=
  d.LT.all (fun i => (alookup d.LT_QF i).isSome) &&
  d.LT.all (fun i => (alookup d.C_LT i).isSome) &&
  d.ST.all (fun j => (alookup d.C_ST j).isSome) &&
  d.ST.contains ("LS_RESTRICT") &&
  d.LT.contains ("LS_RETRO") &&
  (alookup d.LT_MAX ("LS_RETRO")).isSome &&
  d.ST.contains ("EX_OPTION") &&
  d.LT.contains ("OPTION")

/-- The full constraint system of the concrete two-stage model at
SHORTAGE_Q value sq (two_stage_concrete.py lines 56-95): variable
domains (LT_ACTION nonnegative integer, ST_Q nonnegative real),
MeetShortage, LongTermMax, ShortTermMax, ShortTermRestrict,
ShortTermOption, and the explicit nonnegativity constraints. -/
def TwoFeasible (d : TwoStageData) (sq : ℚ) (L S : String → ℚ) : Prop :=
  (∀ i ∈ d.LT, 0 ≤ L i ∧ (L i).den = 1) ∧
  (∀ j ∈ d.ST, 0 ≤ S j) ∧
  (dsum d.LT (fun i => qlook d.LT_QF i * L i) + dsum d.ST (fun j => S j) ≥ sq) ∧
  (∀ i ∈ d.LT, L i ≤ qlook d.LT_MAX i) ∧
  (∀ j ∈ d.ST, S j ≤ qlook d.ST_MAX j) ∧
  (S ("LS_RESTRICT") ≤ qlook d.LT_MAX ("LS_RETRO") - L ("LS_RETRO")) ∧
  (S ("EX_OPTION") ≤ L ("OPTION")) ∧
  (∀ j ∈ d.ST, S j ≥ 0) ∧
  (∀ i ∈ d.LT, L i ≥ 0)

/-- Total_Cost_Objective of the concrete two-stage model
(lines 101-126): FirstStageCost + SecondStageCost
= sum_product(C_LT, LT_ACTION) + sum_product(C_ST, ST_Q). -/
def TwoCost (d : TwoStageData) (L S : String → ℚ) : ℚ :=
  dsum d.LT (fun i => qlook d.C_LT i * L i)
    + dsum d.ST (fun j => qlook d.C_ST j * S j)

/-- Optimality for the concrete two-stage model: feasible and of minimal
total cost among the feasible assignments. -/
def TwoOptimal (d : TwoStageData) (sq : ℚ) (L S : String → ℚ) : Prop :=
  TwoFeasible d sq L S ∧
  ∀ L' S' : String → ℚ, TwoFeasible d sq L' S' → TwoCost d L S ≤ TwoCost d L' S'

/-- Dataset of claim C5 as literally stated: exactly one long-term
action (max 100, cost 5, yield 1) and exactly one short-term action
(max 50, cost 20), here given the names the hard-coded constraints are
most favourable to. -/
def c5Single : TwoStageData :=
  ⟨[(("LS_RETRO"), 100)], [(("LS_RETRO"), 1)], [(("LS_RETRO"), 5)],
   [(("LS_RESTRICT"), 50)], [(("LS_RESTRICT"), 20)]⟩

/-- Claim C5 counterexample.  The concrete two-stage model cannot be
built over a dataset with exactly one long-term and one short-term
action: constraint construction accesses ST_Q[EX_OPTION] and
LT_ACTION[OPTION] (and ST_Q[LS_RESTRICT], LT_ACTION[LS_RETRO]), so at
least two distinctly named long-term actions and two short-term actions
are required; with any other naming the construction fails even
earlier.  Hence no model and no optimal solutions exist for the claimed
dataset. -/
theorem c5_single_action_dataset_fails :
    twoStageBuilds c5Single = false := by
  simp [twoStageBuilds, c5Single, TwoStageData.LT, TwoStageData.ST, keys,
    alookup, String.reduceEq]

/-- Dataset of claim C5 as amended: the long-term action is named
LS_RETRO (max 100, cost 5, yield 1), the short-term action LS_RESTRICT
(max 50, cost 20), and the OPTION long-term and EX_OPTION short-term
actions required by the hard-coded constraints are present with zero
capacity and zero cost. -/
def c5Data : TwoStageData :=
  ⟨[(("LS_RETRO"), 100), (("OPTION"), 0)],
   [(("LS_RETRO"), 1), (("OPTION"), 0)],
   [(("LS_RETRO"), 5), (("OPTION"), 0)],
   [(("LS_RESTRICT"), 50), (("EX_OPTION"), 0)],
   [(("LS_RESTRICT"), 20), (("EX_OPTION"), 0)]⟩

theorem c5_cost_eval (L S : String → ℚ) :
    TwoCost c5Data L S = 5 * L ("LS_RETRO") + 20 * S ("LS_RESTRICT") := by
  simp [TwoCost, c5Data, TwoStageData.LT, TwoStageData.ST, keys, dsum,
    qlook, alookup, String.reduceEq]

theorem c5_feasible_cost_lower_bound (L S : String → ℚ)
    (h : TwoFeasible c5Data 80 L S) : (400:ℚ) ≤ TwoCost c5Data L S := by
  obtain ⟨hLdom, hSdom, hCov, hLmax, hSmax, hRestr, hOpt, hSnn, hLnn⟩ := h
  have hLR : 0 ≤ L ("LS_RETRO") :=
    (hLdom ("LS_RETRO") (by simp [c5Data, TwoStageData.LT, keys])).1
  have hSR : 0 ≤ S ("LS_RESTRICT") :=
    hSdom ("LS_RESTRICT") (by simp [c5Data, TwoStageData.ST, keys])
  have hSE : 0 ≤ S ("EX_OPTION") :=
    hSdom ("EX_OPTION") (by simp [c5Data, TwoStageData.ST, keys])
  have hLO : L ("OPTION") ≤ 0 := by
    have := hLmax ("OPTION") (by simp [c5Data, TwoStageData.LT, keys])
    simpa [c5Data, qlook, alookup, String.reduceEq] using this
  have hCov' : 1 * L ("LS_RETRO") + 0 * L ("OPTION")
      + (S ("LS_RESTRICT") + S ("EX_OPTION")) ≥ 80 := by
    simpa [c5Data, TwoStageData.LT, TwoStageData.ST, keys, dsum, qlook,
      alookup, String.reduceEq, add_assoc] using hCov
  rw [c5_cost_eval]
  linarith

/-- Claim C5, amended.  For the two-stage deterministic model over the
dataset with long-term actions LS_RETRO (max 100, cost 5, yield 1) and
OPTION (zero max, cost and yield), and short-term actions LS_RESTRICT
(max 50, cost 20) and EX_OPTION (zero max and cost), with shortage
requirement 80: every optimal solution keeps LS_RETRO within its max
100, LS_RESTRICT within its max 50, both nonnegative, covers the
shortage (yield times LS_RETRO plus LS_RESTRICT is at least 80), and
minimizes the blended cost 5*LT_ACTION + 20*ST_Q among all feasible
solutions. -/
theorem c5_two_stage_minimal_dataset (L S : String → ℚ)
    (h : TwoOptimal c5Data 80 L S) :
    L ("LS_RETRO") ≤ 100 ∧ S ("LS_RESTRICT") ≤ 50 ∧
    0 ≤ L ("LS_RETRO") ∧ 0 ≤ S ("LS_RESTRICT") ∧
    qlook c5Data.LT_QF ("LS_RETRO") * L ("LS_RETRO") + S ("LS_RESTRICT") ≥ 80 ∧
    (∀ L' S' : String → ℚ, TwoFeasible c5Data 80 L' S' →
      5 * L ("LS_RETRO") + 20 * S ("LS_RESTRICT")
        ≤ 5 * L' ("LS_RETRO") + 20 * S' ("LS_RESTRICT")) := by
  obtain ⟨hf, hmin⟩ := h
  obtain ⟨hLdom, hSdom, hCov, hLmax, hSmax, hRestr, hOpt, hSnn, hLnn⟩ := hf
  have hLR100 : L ("LS_RETRO") ≤ 100 := by
    have := hLmax ("LS_RETRO") (by simp [c5Data, TwoStageData.LT, keys])
    simpa [c5Data, qlook, alookup, String.reduceEq] using this
  have hSR50 : S ("LS_RESTRICT") ≤ 50 := by
    have := hSmax ("LS_RESTRICT") (by simp [c5Data, TwoStageData.ST, keys])
    simpa [c5Data, qlook, alookup, String.reduceEq] using this
  have hLR : 0 ≤ L ("LS_RETRO") :=
    (hLdom ("LS_RETRO") (by simp [c5Data, TwoStageData.LT, keys])).1
  have hSR : 0 ≤ S ("LS_RESTRICT") :=
    hSdom ("LS_RESTRICT") (by simp [c5Data, TwoStageData.ST, keys])
  have hSE : 0 ≤ S ("EX_OPTION") :=
    hSdom ("EX_OPTION") (by simp [c5Data, TwoStageData.ST, keys])
  have hLO : L ("OPTION") ≤ 0 := by
    have := hLmax ("OPTION") (by simp [c5Data, TwoStageData.LT, keys])
    simpa [c5Data, qlook, alookup, String.reduceEq] using this
  have hSEopt : S ("EX_OPTION") ≤ L ("OPTION") := hOpt
  have hCov' : 1 * L ("LS_RETRO") + 0 * L ("OPTION")
      + (S ("LS_RESTRICT") + S ("EX_OPTION")) ≥ 80 := by
    simpa [c5Data, TwoStageData.LT, TwoStageData.ST, keys, dsum, qlook,
      alookup, String.reduceEq, add_assoc] using hCov
  refine ⟨hLR100, hSR50, hLR, hSR, ?_, ?_⟩
  · have : qlook c5Data.LT_QF ("LS_RETRO") = 1 := by
      simp [c5Data, qlook, alookup, String.reduceEq]
    rw [this]
    linarith
  · intro L' S' hfeas
    have h1 := hmin L' S' hfeas
    rw [c5_cost_eval, c5_cost_eval] at h1
    linarith

/-- Long-term part of the optimal assignment used in the C5 witness:
80 units of LS_RETRO and nothing else. -/
def c5L : String → ℚ := fun i => if i = "LS_RETRO" then 80 else 0

/-- Short-term part of the optimal assignment used in the C5 witness. -/
def c5S : String → ℚ := fun _ => 0

theorem c5_witness_feasible : TwoFeasible c5Data 80 c5L c5S := by
  refine ⟨?_, ?_, ?_, ?_, ?_, ?_, ?_, ?_, ?_⟩ <;>
    simp [TwoFeasible, c5Data, c5L, c5S, TwoStageData.LT, TwoStageData.ST,
      keys, dsum, qlook, alookup, String.reduceEq] <;>
    norm_num

/-- Witness for the amended claim C5: the assignment LS_RETRO = 80,
everything else 0, is optimal for the amended dataset, and the claimed
bounds and coverage hold of it. -/
theorem c5_two_stage_minimal_dataset_witness :
    TwoOptimal c5Data 80 c5L c5S ∧
      c5L ("LS_RETRO") ≤ 100 ∧ c5S ("LS_RESTRICT") ≤ 50 ∧
      qlook c5Data.LT_QF ("LS_RETRO") * c5L ("LS_RETRO") + c5S ("LS_RESTRICT") ≥ 80 := by
  have hopt : TwoOptimal c5Data 80 c5L c5S := by
    refine ⟨c5_witness_feasible, fun L' S' hfeas => ?_⟩
    have h1 : TwoCost c5Data c5L c5S = 400 := by
      rw [c5_cost_eval]
      simp [c5L, c5S, String.reduceEq]
      norm_num
    rw [h1]
    exact c5_feasible_cost_lower_bound L' S' hfeas
  have h := c5_two_stage_minimal_dataset c5L c5S hopt
  exact ⟨hopt, h.1, h.2.1, h.2.2.2.2.1⟩

/-!
## Two-stage abstract model
(src/models/two_stage_deterministic_abstract/two_stage_deterministic.py)

Same data shape as the concrete model.  Differences visible in the
source: the ShortTermRestrict constraint references ST_Q[RESTRICT] and
LT_ACTION[LSRETRO] / LT_MAX[LSRETRO] (line 74) where the concrete model
references LS_RESTRICT and LS_RETRO (line 82), and the abstract Params
declare domains (LT_MAX, LT_QF within NonNegativeIntegers; C_LT,
ST_MAX, C_ST within NonNegativeReals, lines 30-40) that validate the
data at instantiation time.
-/

/-- Constraint system of the abstract two-stage model at SHORTAGE_Q
value sq (two_stage_deterministic.py lines 52-87).  Identical to
TwoFeasible except for the ShortTermRestrict_rule key names. -/
def TwoAbsFeasible (d : TwoStageData) (sq : ℚ) (L S : String → ℚ) : Prop :=
  (∀ i ∈ d.LT, 0 ≤ L i ∧ (L i).den = 1) ∧
  (∀ j ∈ d.ST, 0 ≤ S j) ∧
  (dsum d.LT (fun i => qlook d.LT_QF i * L i) + dsum d.ST (fun j => S j) ≥ sq) ∧
  (∀ i ∈ d.LT, L i ≤ qlook d.LT_MAX i) ∧
  (∀ j ∈ d.ST, S j ≤ qlook d.ST_MAX j) ∧
  (S ("RESTRICT") ≤ qlook d.LT_MAX ("LSRETRO") - L ("LSRETRO")) ∧
  (S ("EX_OPTION") ≤ L ("OPTION")) ∧
  (∀ j ∈ d.ST, S j ≥ 0) ∧
  (∀ i ∈ d.LT, L i ≥ 0)

/-- Total_Cost_Objective of the abstract two-stage model
(lines 93-110): sum_product(C_LT, LT_ACTION) + sum_product(C_ST, ST_Q). -/
def TwoAbsCost (d : TwoStageData) (L S : String → ℚ) : ℚ :=
  dsum d.LT (fun i => qlook d.C_LT i * L i)
    + dsum d.ST (fun j => qlook d.C_ST j * S j)

/-- Param domain validation of the abstract model (lines 30-46):
LT_MAX and LT_QF are within NonNegativeIntegers, C_LT, ST_MAX, C_ST
within NonNegativeReals; data violating these is rejected when the
abstract model is instantiated. -/
def TwoAbsDataValid (d : TwoStageData) : Prop :=
  (∀ kv ∈ d.LT_MAX, 0 ≤ kv.2 ∧ kv.2.den = 1) ∧
  (∀ kv ∈ d.LT_QF, 0 ≤ kv.2 ∧ kv.2.den = 1) ∧
  (∀ kv ∈ d.C_LT, 0 ≤ kv.2) ∧
  (∀ kv ∈ d.ST_MAX, 0 ≤ kv.2) ∧
  (∀ kv ∈ d.C_ST, 0 ≤ kv.2)

/-- Dataset used to refute claim C6: it contains all key names either
model hard-codes, so both models build, and it satisfies the abstract
model's Param domains. -/
def c6Data : TwoStageData :=
  ⟨[(("LS_RETRO"), 1), (("LSRETRO"), 0), (("OPTION"), 0)],
   [(("LS_RETRO"), 0), (("LSRETRO"), 0), (("OPTION"), 0)],
   [(("LS_RETRO"), 0), (("LSRETRO"), 0), (("OPTION"), 0)],
   [(("LS_RESTRICT"), 1), (("RESTRICT"), 1), (("EX_OPTION"), 0)],
   [(("LS_RESTRICT"), 0), (("RESTRICT"), 0), (("EX_OPTION"), 0)]⟩

/-- Short-term assignment used to refute claim C6: one unit of the
RESTRICT action, nothing else. -/
def c6S : String → ℚ := fun j => if j = "RESTRICT" then 1 else 0

/-- Claim C6 counterexample.  On a dataset accepted by both models
(c6Data, which satisfies the abstract Param domains), the assignment
with ST_Q[RESTRICT] = 1 and every other variable 0 at SHORTAGE_Q = 0
satisfies all constraints of the concrete model but violates the
abstract model's ShortTermRestrict constraint, because the abstract
model caps ST_Q[RESTRICT] by LT_MAX[LSRETRO] - LT_ACTION[LSRETRO]
while the concrete model caps ST_Q[LS_RESTRICT] by
LT_MAX[LS_RETRO] - LT_ACTION[LS_RETRO]: the two constraint systems do
not coincide. -/
theorem c6_abstract_differs_from_concrete :
    TwoAbsDataValid c6Data ∧
    TwoFeasible c6Data 0 (fun _ => 0) c6S ∧
    ¬ TwoAbsFeasible c6Data 0 (fun _ => 0) c6S := by
  refine ⟨?_, ?_, ?_⟩
  · refine ⟨?_, ?_, ?_, ?_, ?_⟩ <;>
      simp [c6Data, String.reduceEq]
  · refine ⟨?_, ?_, ?_, ?_, ?_, ?_, ?_, ?_, ?_⟩ <;>
      simp [c6Data, c6S, TwoStageData.LT, TwoStageData.ST, keys, dsum,
        qlook, alookup, String.reduceEq]
  · intro h
    have := h.2.2.2.2.2.1
    simp [c6Data, c6S, qlook, alookup, String.reduceEq] at this
    norm_num at this

/-- Claim C6, amended.  The abstract two-stage model defines the same
mathematical structure as the concrete two-stage model except that its
restrict constraint names the actions RESTRICT and LSRETRO where the
concrete model names them LS_RESTRICT and LS_RETRO: for every dataset
(accepted by the abstract model's Param domains) and every assignment
and LT_MAX data agreeing on the renamed coordinates, the two
constraint systems coincide and the two minimized objectives are
equal. -/
theorem c6_abstract_concrete_agree (d : TwoStageData) (sq : ℚ)
    (L S : String → ℚ)
    (_hvalid : TwoAbsDataValid d)
    (hL : L ("LSRETRO") = L ("LS_RETRO"))
    (hS : S ("RESTRICT") = S ("LS_RESTRICT"))
    (hM : qlook d.LT_MAX ("LSRETRO") = qlook d.LT_MAX ("LS_RETRO")) :
    (TwoAbsFeasible d sq L S ↔ TwoFeasible d sq L S) ∧
      TwoAbsCost d L S = TwoCost d L S := by
  constructor
  · unfold TwoAbsFeasible TwoFeasible
    rw [hL, hS, hM]
  · rfl

/-- Dataset used in the C6 witness: both LT_MAX spellings carry the
same capacity, so the renamed coordinates agree. -/
def c6WData : TwoStageData :=
  ⟨[(("LS_RETRO"), 1), (("LSRETRO"), 1), (("OPTION"), 0)],
   [(("LS_RETRO"), 0), (("LSRETRO"), 0), (("OPTION"), 0)],
   [(("LS_RETRO"), 0), (("LSRETRO"), 0), (("OPTION"), 0)],
   [(("LS_RESTRICT"), 1), (("RESTRICT"), 1), (("EX_OPTION"), 0)],
   [(("LS_RESTRICT"), 0), (("RESTRICT"), 0), (("EX_OPTION"), 0)]⟩

/-- Witness for the amended claim C6: on c6WData with the all-zero
assignment the hypotheses hold and the two models agree. -/
theorem c6_abstract_concrete_agree_witness :
    TwoAbsDataValid c6WData ∧
      (TwoAbsFeasible c6WData 0 (fun _ => 0) (fun _ => 0) ↔
        TwoFeasible c6WData 0 (fun _ => 0) (fun _ => 0)) ∧
      TwoAbsCost c6WData (fun _ => 0) (fun _ => 0)
        = TwoCost c6WData (fun _ => 0) (fun _ => 0) := by
  have hvalid : TwoAbsDataValid c6WData := by
    refine ⟨?_, ?_, ?_, ?_, ?_⟩ <;> simp [c6WData, String.reduceEq]
  have hM : qlook c6WData.LT_MAX ("LSRETRO") = qlook c6WData.LT_MAX ("LS_RETRO") := by
    simp [c6WData, qlook, alookup, String.reduceEq]
  have h := c6_abstract_concrete_agree c6WData 0 (fun _ => 0) (fun _ => 0)
    hvalid rfl rfl hM
  exact ⟨hvalid, h.1, h.2⟩

/-!
## Scenario instantiation callbacks
(three_stage.py lines 276-290 and two_stage_concrete.py lines 132-141)

The module-level symbolic model holds the mutable parameters
SHORTAGE_Q (and, in the stochastic model, SHORT_Q_MAX and SHORT_COST),
all initialized 0.0; every other component of the model is abstracted
by a type parameter.  pysp_instance_creation_callback clones the
symbolic model and overwrites the mutable parameters on the clone; the
callback is embedded as a state-passing function returning the
(possibly updated) module state together with the instance, with
Python KeyError / IndexError modelled by none.
-/

/-- Python dict.update: keys of the second dictionary override the
first (used by the module-level flattening of the nested SHORTAGE_Q
table, three_stage.py lines 276-278). -/
def dictUpdate (base upd : List (String × ℚ)) : List (String × ℚ) :=
  base.filter (fun kv => !((keys upd).contains kv.1)) ++ upd

/-- Data tables of the three-stage stochastic model used by
pysp_instance_creation_callback: the nested per-projection scenario
shortage values, the per-tree-node SHORT_Q_MAX and SHORT_COST tables,
and the SHORT index set of the model. -/
structure StochData where
  SHORTAGE_Q : List (String × List (String × ℚ))
  SHORT_Q_MAX : List (String × List (String × ℚ))
  SHORT_COST : List (String × List (String × ℚ))
  SHORT : List String

/-- Module-level flattened scenario-to-value table (three_stage.py
lines 276-278): dictionaries of every projection merged by dict.update. -/
def flatSHORTAGE_Q (d : StochData) : List (String × ℚ) :=
  d.SHORTAGE_Q.foldl (fun acc pr => dictUpdate acc pr.2) []

/-- The symbolic three-stage stochastic model: the three mutable
parameters (SHORTAGE_Q at its single index SH; SHORT_Q_MAX and
SHORT_COST as maps over the SHORT set) plus every other component,
abstracted as other. -/
structure SymModel (Ω : Type) where
  SHORTAGE_Q : ℚ
  SHORT_Q_MAX : String → ℚ
  SHORT_COST : String → ℚ
  other : Ω

/-- The per-index overwrite loop of three_stage.py lines 287-289: for
each i in the SHORT set, look up node_names[1] and then i in the given
nested table and assign the value on the instance's parameter map.
A missing list index or dictionary key is none (IndexError/KeyError). -/
def overwriteShortParams (tbl : List (String × List (String × ℚ)))
    (node_names : List String) : List String → (String → ℚ) → Option (String → ℚ)
  | [], f => some f
  | i :: t, f =>
      match node_names.get? 1 with
      | none => none
      | some node =>
          match alookup tbl node with
          | none => none
          | some m =>
              match alookup m i with
              | none => none
              | some v => overwriteShortParams tbl node_names t (Function.update f i v)

/-- pysp_instance_creation_callback of the three-stage stochastic model
(three_stage.py lines 284-290): clone the symbolic model, store the
scenario's SHORTAGE_Q value, then overwrite SHORT_Q_MAX[i] and
SHORT_COST[i] for every i in SHORT from the node_names[1] tables.  The
source interleaves the two assignments in one loop; the resulting
parameter maps are the same as performing the two overwrite passes in
sequence.  The returned pair is (module state after the call, instance). -/
def stoch_instance_callback {Ω : Type} (d : StochData) (scenario_name : String)
    (node_names : List String) (m : SymModel Ω) :
    Option (SymModel Ω × SymModel Ω) :=
  match alookup (flatSHORTAGE_Q d) scenario_name with
  | none => none
  | some sq =>
      match overwriteShortParams d.SHORT_Q_MAX node_names d.SHORT m.SHORT_Q_MAX with
      | none => none
      | some qmax =>
          match overwriteShortParams d.SHORT_COST node_names d.SHORT m.SHORT_COST with
          | none => none
          | some cost => some (m, SymModel.mk sq qmax cost m.other)

/-- The symbolic two-stage model: the mutable SHORTAGE_Q parameter plus
every other component, abstracted as other. -/
structure TwoSymModel (Ω : Type) where
  SHORTAGE_Q : ℚ
  other : Ω

/-- pysp_instance_creation_callback of the concrete two-stage model
(two_stage_concrete.py lines 136-141): clone the symbolic model and
store the scenario's SHORTAGE_Q value on the clone.  node_names is
received and ignored, as in the source. -/
def two_stage_instance_callback {Ω : Type} (shortageQ : List (String × ℚ))
    (scenario_name : String) (_node_names : List String) (m : TwoSymModel Ω) :
    Option (TwoSymModel Ω × TwoSymModel Ω) :=
  match alookup shortageQ scenario_name with
  | none => none
  | some sq => some (m, TwoSymModel.mk sq m.other)

theorem stoch_callback_frame {Ω : Type} (d : StochData) (s : String)
    (ns : List String) (m m' inst : SymModel Ω)
    (h : stoch_instance_callback d s ns m = some (m', inst)) : m' = m := by
  unfold stoch_instance_callback at h
  split at h
  · simp at h
  · split at h
    · simp at h
    · split at h
      · simp at h
      · simp only [Option.some.injEq, Prod.mk.injEq] at h
        exact h.1.symm

theorem two_stage_callback_frame {Ω : Type} (sQ : List (String × ℚ)) (s : String)
    (ns : List String) (m m' inst : TwoSymModel Ω)
    (h : two_stage_instance_callback sQ s ns m = some (m', inst)) : m' = m := by
  unfold two_stage_instance_callback at h
  split at h
  · simp at h
  · simp only [Option.some.injEq, Prod.mk.injEq] at h
    exact h.1.symm

/-- Claim C8.  Instantiation is idempotent: whenever
pysp_instance_creation_callback succeeds for a scenario name and
node-name path, calling it again with the same arguments (from the
module state left by the first call) succeeds and produces the
identical instance - in particular identical overridden mutable
parameter values (SHORTAGE_Q, and for the three-stage stochastic model
SHORT_Q_MAX and SHORT_COST) at every index - and the identical module
state; both the three-stage stochastic and the two-stage callbacks are
covered. -/
theorem c8_instance_creation_idempotent {Ω : Type} (d : StochData)
    (sQ : List (String × ℚ)) (s s2 : String) (ns ns2 : List String)
    (m : SymModel Ω) (m' : SymModel Ω) (inst : SymModel Ω)
    (m2 : TwoSymModel Ω) (m2' : TwoSymModel Ω) (inst2 : TwoSymModel Ω)
    (h : stoch_instance_callback d s ns m = some (m', inst))
    (h2 : two_stage_instance_callback sQ s2 ns2 m2 = some (m2', inst2)) :
    stoch_instance_callback d s ns m' = some (m', inst) ∧
    two_stage_instance_callback sQ s2 ns2 m2' = some (m2', inst2) := by
  have e1 : m' = m := stoch_callback_frame d s ns m m' inst h
  have e2 : m2' = m2 := two_stage_callback_frame sQ s2 ns2 m2 m2' inst2 h2
  subst e1
  subst e2
  exact ⟨h, h2⟩

/-- Stochastic data used in the C8/C9 witnesses: one projection P1 with
scenario S1 (shortage 3), one tree node P1 with a single shortage
bucket B (cap 7, cost 9). -/
def stochData0 : StochData :=
  ⟨[(("P1"), [(("S1"), 3)])], [(("P1"), [(("B"), 7)])],
   [(("P1"), [(("B"), 9)])], [("B")]⟩

/-- Initial symbolic three-stage model of the witnesses: mutable
parameters 0.0, as initialized in the source. -/
def stochM0 : SymModel Unit := SymModel.mk 0 (fun _ => 0) (fun _ => 0) ()

/-- Instance produced by the stochastic callback in the C8 witness. -/
def stochInst0 : SymModel Unit :=
  SymModel.mk 3 (Function.update (fun _ => 0) ("B") 7)
    (Function.update (fun _ => 0) ("B") 9) ()

/-- Two-stage scenario table of the C8 witness. -/
def twoSQ0 : List (String × ℚ) := [(("S1"), 3)]

/-- Initial symbolic two-stage model of the C8 witness. -/
def twoM0 : TwoSymModel Unit := TwoSymModel.mk 0 ()

/-- Witness for claim C8: both callbacks succeed on concrete data and
the repeated call reproduces the same state and instance. -/
theorem c8_instance_creation_idempotent_witness :
    stoch_instance_callback stochData0 ("S1") (["Root", "P1", "L1"]) stochM0
        = some (stochM0, stochInst0) ∧
      two_stage_instance_callback twoSQ0 ("S1") (["Root", "L1"]) twoM0
        = some (twoM0, TwoSymModel.mk 3 ()) :=
  c8_instance_creation_idempotent stochData0 twoSQ0 ("S1") ("S1")
    (["Root", "P1", "L1"]) (["Root", "L1"]) stochM0 stochM0 stochInst0
    twoM0 twoM0 (TwoSymModel.mk 3 ()) (by rfl) (by rfl)

/-- Sequential execution of any number of instance-creation calls
against the module state of the three-stage stochastic model, as the
external runner performs one call per leaf scenario; the produced
instances are solved externally and play no further role here. -/
def runStochCalls {Ω : Type} (d : StochData) :
    List (String × List String) → SymModel Ω → Option (SymModel Ω)
  | [], m => some m
  | c :: t, m =>
      match stoch_instance_callback d c.1 c.2 m with
      | none => none
      | some r => runStochCalls d t r.1

theorem runStochCalls_frame {Ω : Type} (d : StochData)
    (calls : List (String × List String)) (m final : SymModel Ω)
    (h : runStochCalls d calls m = some final) : final = m := by
  induction calls generalizing m with
  | nil =>
      unfold runStochCalls at h
      simpa using h.symm
  | cons c t ih =>
      unfold runStochCalls at h
      split at h
      · simp at h
      · rename_i r heq
        have e1 : r.1 = m :=
          stoch_callback_frame d c.1 c.2 m r.1 r.2 (by rw [heq])
        rw [e1] at h
        exact ih m h

/-- Claim C9.  pysp_instance_creation_callback overwrites
scenario-specific mutable parameters only on the cloned instance it
returns: after any number of successful calls, the module-level
symbolic model of the three-stage stochastic model still holds the
initialized value 0.0 in SHORTAGE_Q and in SHORT_Q_MAX and SHORT_COST
at every index, and no other component of the symbolic model is
changed. -/
theorem c9_symbolic_model_unchanged {Ω : Type} (d : StochData)
    (calls : List (String × List String)) (om : Ω) (final : SymModel Ω)
    (h : runStochCalls d calls (SymModel.mk 0 (fun _ => 0) (fun _ => 0) om)
          = some final) :
    final.SHORTAGE_Q = 0 ∧ (∀ i, final.SHORT_Q_MAX i = 0) ∧
    (∀ i, final.SHORT_COST i = 0) ∧ final.other = om := by
  have e := runStochCalls_frame d calls _ final h
  rw [e]
  exact ⟨rfl, fun _ => rfl, fun _ => rfl, rfl⟩

/-- Witness for claim C9: two successful calls on concrete data leave
the symbolic model at its initialized state. -/
theorem c9_symbolic_model_unchanged_witness :
    runStochCalls stochData0
        [(("S1"), ["Root", "P1", "L1"]), (("S1"), ["Root", "P1", "L1"])]
        (SymModel.mk 0 (fun _ => 0) (fun _ => 0) ())
      = some (SymModel.mk 0 (fun _ => 0) (fun _ => 0) ()) ∧
    (SymModel.mk (0:ℚ) (fun _ => (0:ℚ)) (fun _ => (0:ℚ)) ()).SHORTAGE_Q = 0 ∧
    (SymModel.mk (0:ℚ) (fun _ => (0:ℚ)) (fun _ => (0:ℚ)) ()).SHORT_Q_MAX ("B") = 0 ∧
    (SymModel.mk (0:ℚ) (fun _ => (0:ℚ)) (fun _ => (0:ℚ)) ()).other = () := by
  have hrun : runStochCalls stochData0
      [(("S1"), ["Root", "P1", "L1"]), (("S1"), ["Root", "P1", "L1"])]
      (SymModel.mk 0 (fun _ => 0) (fun _ => 0) ())
        = some (SymModel.mk 0 (fun _ => 0) (fun _ => 0) ()) := by rfl
  have h := c9_symbolic_model_unchanged stochData0
    [(("S1"), ["Root", "P1", "L1"]), (("S1"), ["Root", "P1", "L1"])] ()
    (SymModel.mk 0 (fun _ => 0) (fun _ => 0) ()) hrun
  exact ⟨hrun, h.1, h.2.1 ("B"), h.2.2.2⟩

/-!
## Scenario-tree construction callbacks
(three_stage_scenario.py lines 186-215, three_stage.py lines 298-327,
two_stage_concrete.py lines 143-162)

pysp_scenario_tree_model_callback returns a networkx DiGraph.  Only the
weighted edges matter for the probability claim; node and cost
attributes carry no weights.  networkx add_edge replaces an existing
edge with the same endpoints, which addEdge mirrors by filtering before
appending.  A node is a non-leaf exactly when it has at least one
outgoing edge.  The three-level construction is identical in the
three-stage scenario and three-stage stochastic files: add an edge
Root -> projection weighted by PROJECTION_P[projection], then for each
shortage in SHORTAGE_P[projection] an edge projection -> shortage
weighted by SHORTAGE_P[projection][shortage].  The two-stage file adds
one edge Root -> shortage per key of SHORTAGE_Q, weighted by
SHORTAGE_P[shortage].
-/

/-- Insert a weighted directed edge, replacing any existing edge with
the same endpoints (networkx add_edge semantics). -/
def addEdge (es : List (String × String × ℚ)) (u v : String) (w : ℚ) :
    List (String × String × ℚ) :=
  es.filter (fun e => !(e.1 == u && e.2.1 == v)) ++ [(u, v, w)]

/-- Inner loop of the three-level construction: one edge from the
projection node to each of its shortage nodes. -/
def addShortageEdges (proj : String) (shorts : List (String × ℚ))
    (es : List (String × String × ℚ)) : List (String × String × ℚ) :=
  shorts.foldl (fun acc sw => addEdge acc proj sw.1 sw.2) es

/-- Outer loop of the three-level construction over PROJECTION_P;
SHORTAGE_P[projection] missing is a KeyError, hence none. -/
def threeStageTreeGo (shortP : List (String × List (String × ℚ))) :
    List (String × ℚ) → List (String × String × ℚ) →
    Option (List (String × String × ℚ))
  | [], es => some es
  | pw :: t, es =>
      match alookup shortP pw.1 with
      | none => none
      | some shorts =>
          threeStageTreeGo shortP t
            (addShortageEdges pw.1 shorts (addEdge es ("Root") pw.1 pw.2))

/-- Edge list of the scenario tree built by
pysp_scenario_tree_model_callback of the three-stage models from the
PROJECTION_P and SHORTAGE_P tables. -/
def threeStageTree (projP : List (String × ℚ))
    (shortP : List (String × List (String × ℚ))) :
    Option (List (String × String × ℚ)) :=
  threeStageTreeGo shortP projP []

/-- Loop of the two-stage construction over the keys of SHORTAGE_Q,
taking each weight from SHORTAGE_P (KeyError as none). -/
def twoStageTreeGo (shortageP : List (String × ℚ)) :
    List (String × ℚ) → List (String × String × ℚ) →
    Option (List (String × String × ℚ))
  | [], es => some es
  | sq :: t, es =>
      match alookup shortageP sq.1 with
      | none => none
      | some w => twoStageTreeGo shortageP t (addEdge es ("Root") sq.1 w)

/-- Edge list of the scenario tree built by
pysp_scenario_tree_model_callback of the concrete two-stage model. -/
def twoStageTree (shortageQ shortageP : List (String × ℚ)) :
    Option (List (String × String × ℚ)) :=
  twoStageTreeGo shortageP shortageQ []

/-- Outgoing edges of a node. -/
def outEdges (es : List (String × String × ℚ)) (s : String) :
    List (String × String × ℚ) :=
  es.filter (fun e => e.1 == s)

/-- Sum of the weights on a node's outgoing edges. -/
def outWeight (es : List (String × String × ℚ)) (s : String) : ℚ :=
  ((outEdges es s).map (fun e => e.2.2)).sum

/-- Total weight of a probability table. -/
def wsum (l : List (String × ℚ)) : ℚ :=
  (l.map (fun kv => kv.2)).sum

/-- Projection table used to refute claim C7: a single projection that
happens to be named Root, with probability 1. -/
def c7PP : List (String × ℚ) := [(("Root"), 1)]

/-- Shortage table used to refute claim C7: the Root projection has a
single shortage S1 with conditional probability 1. -/
def c7SP : List (String × List (String × ℚ)) := [(("Root"), [(("S1"), 1)])]

/-- Claim C7 counterexample.  The claim quantifies over every input
data set whose PROJECTION_P sums to 1 and whose SHORTAGE_P sums to 1
within each projection.  With a projection named Root (c7PP, c7SP)
both probability hypotheses hold, yet the graph has the edges
Root -> Root (weight 1) and Root -> S1 (weight 1), so the non-leaf
node Root has outgoing weight 2, not 1. -/
theorem c7_outgoing_weight_not_one :
    wsum c7PP = 1 ∧ wsum [(("S1"), (1:ℚ))] = 1 ∧
    threeStageTree c7PP c7SP
      = some [(("Root"), ("Root"), 1), (("Root"), ("S1"), 1)] ∧
    outEdges [(("Root"), ("Root"), (1:ℚ)), (("Root"), ("S1"), (1:ℚ))] ("Root") ≠ [] ∧
    outWeight [(("Root"), ("Root"), (1:ℚ)), (("Root"), ("S1"), (1:ℚ))] ("Root") = 2 := by
  refine ⟨by norm_num [wsum, c7PP], by norm_num [wsum], by rfl, ?_, ?_⟩
  · simp [outEdges]
  · simp [outWeight, outEdges]
    norm_num

theorem addEdge_not_mem (es : List (String × String × ℚ)) (u v : String) (w : ℚ)
    (h : ∀ e ∈ es, ¬(e.1 = u ∧ e.2.1 = v)) :
    addEdge es u v w = es ++ [(u, v, w)] := by
  unfold addEdge
  congr 1
  apply List.filter_eq_self.mpr
  intro e he
  have h2 := h e he
  rcases Decidable.em (e.1 = u) with h1 | h1
  · rcases Decidable.em (e.2.1 = v) with hv | hv
    · exact absurd ⟨h1, hv⟩ h2
    · simp [h1, hv]
  · simp [h1]

theorem addShortageEdges_eq_append (proj : String) (shorts : List (String × ℚ))
    (es : List (String × String × ℚ))
    (hnd : (keys shorts).Nodup)
    (h : ∀ e ∈ es, ¬(e.1 = proj ∧ e.2.1 ∈ keys shorts)) :
    addShortageEdges proj shorts es
      = es ++ shorts.map (fun sw => (proj, sw.1, sw.2)) := by
  induction shorts generalizing es with
  | nil => simp [addShortageEdges]
  | cons sw t ih =>
      simp only [keys, List.map_cons, List.nodup_cons] at hnd
      have hstep : addEdge es proj sw.1 sw.2 = es ++ [(proj, sw.1, sw.2)] := by
        apply addEdge_not_mem
        intro e he hc
        exact h e he ⟨hc.1, by simp [keys, hc.2]⟩
      have hrec : addShortageEdges proj t (es ++ [(proj, sw.1, sw.2)])
          = (es ++ [(proj, sw.1, sw.2)]) ++ t.map (fun sw2 => (proj, sw2.1, sw2.2)) := by
        apply ih
        · simpa [keys] using hnd.2
        · intro e he hc
          rcases List.mem_append.mp he with he1 | he2
          · refine h e he1 ⟨hc.1, ?_⟩
            simp only [keys, List.map_cons, List.mem_cons]
            exact Or.inr (by simpa [keys] using hc.2)
          · have heq : e = (proj, sw.1, sw.2) := by simpa using he2
            rw [heq] at hc
            exact hnd.1 (by simpa [keys] using hc.2)
      have hshift : addShortageEdges proj (sw :: t) es
          = addShortageEdges proj t (addEdge es proj sw.1 sw.2) := rfl
      rw [hshift, hstep, hrec]
      simp

/-- Edge list the three-level construction produces when no
deduplication fires: for each projection, the Root edge followed by its
shortage edges. -/
def treeSpec (shortP : List (String × List (String × ℚ))) :
    List (String × ℚ) → List (String × String × ℚ)
  | [] => []
  | pw :: t =>
      (("Root"), pw.1, pw.2)
        :: (((alookup shortP pw.1).getD []).map (fun sw => (pw.1, sw.1, sw.2))
            ++ treeSpec shortP t)

theorem threeStageTreeGo_eq (shortP : List (String × List (String × ℚ)))
    (pP : List (String × ℚ)) (es : List (String × String × ℚ))
    (hnd : (keys pP).Nodup)
    (hroot : ("Root") ∉ keys pP)
    (hlook : ∀ p ∈ keys pP, ∃ l, alookup shortP p = some l ∧ (keys l).Nodup)
    (hacc : ∀ e ∈ es, (e.1 = "Root" → e.2.1 ∉ keys pP) ∧ e.1 ∉ keys pP) :
    threeStageTreeGo shortP pP es = some (es ++ treeSpec shortP pP) := by
  induction pP generalizing es with
  | nil => simp [threeStageTreeGo, treeSpec]
  | cons pw t ih =>
      have hkeys : keys (pw :: t) = pw.1 :: keys t := by simp [keys]
      rw [hkeys] at hnd hroot hlook hacc
      rw [List.nodup_cons] at hnd
      have hpwroot : pw.1 ≠ "Root" := by
        intro hcon
        exact hroot (hcon ▸ List.mem_cons_self pw.1 (keys t))
      have hroott : ("Root") ∉ keys t := fun hc => hroot (List.mem_cons_of_mem _ hc)
      obtain ⟨l, hl, hlnd⟩ := hlook pw.1 (List.mem_cons_self pw.1 (keys t))
      have hstep : addEdge es ("Root") pw.1 pw.2 = es ++ [(("Root"), pw.1, pw.2)] := by
        apply addEdge_not_mem
        intro e he hc
        exact (hacc e he).1 hc.1 (hc.2 ▸ List.mem_cons_self pw.1 (keys t))
      have hshort : addShortageEdges pw.1 l (es ++ [(("Root"), pw.1, pw.2)])
          = (es ++ [(("Root"), pw.1, pw.2)]) ++ l.map (fun sw => (pw.1, sw.1, sw.2)) := by
        apply addShortageEdges_eq_append pw.1 l _ hlnd
        intro e he hc
        rcases List.mem_append.mp he with he1 | he2
        · exact (hacc e he1).2 (hc.1 ▸ List.mem_cons_self pw.1 (keys t))
        · have heq : e = (("Root"), pw.1, pw.2) := by simpa using he2
          rw [heq] at hc
          exact hpwroot hc.1.symm
      have hrec : threeStageTreeGo shortP t
          ((es ++ [(("Root"), pw.1, pw.2)]) ++ l.map (fun sw => (pw.1, sw.1, sw.2)))
          = some (((es ++ [(("Root"), pw.1, pw.2)]) ++ l.map (fun sw => (pw.1, sw.1, sw.2)))
              ++ treeSpec shortP t) := by
        apply ih
        · exact hnd.2
        · exact hroott
        · intro p hp
          exact hlook p (List.mem_cons_of_mem _ hp)
        · intro e he
          rcases List.mem_append.mp he with he1 | he2
          · rcases List.mem_append.mp he1 with he3 | he4
            · exact ⟨fun hr hmem => (hacc e he3).1 hr (List.mem_cons_of_mem _ hmem),
                fun hmem => (hacc e he3).2 (List.mem_cons_of_mem _ hmem)⟩
            · have heq : e = (("Root"), pw.1, pw.2) := by simpa using he4
              rw [heq]
              exact ⟨fun _ hmem => hnd.1 (by simpa [keys] using hmem),
                fun hmem => hroott (by simpa [keys] using hmem)⟩
          · obtain ⟨sw, _, heq⟩ := List.mem_map.mp he2
            rw [← heq]
            refine ⟨fun hr => absurd hr hpwroot, fun hmem => hnd.1 ?_⟩
            simpa [keys] using hmem
      have hshift : threeStageTreeGo shortP (pw :: t) es
          = threeStageTreeGo shortP t
              (addShortageEdges pw.1 l (addEdge es ("Root") pw.1 pw.2)) := by
        simp only [threeStageTreeGo, hl]
      rw [hshift, hstep, hshort, hrec]
      simp [treeSpec, hl]

@[simp] theorem keys_nil {β : Type} : keys ([] : List (String × β)) = [] := rfl

@[simp] theorem keys_cons {β : Type} (kv : String × β) (t : List (String × β)) :
    keys (kv :: t) = kv.1 :: keys t := rfl

theorem outWeight_cons (e : String × String × ℚ)
    (es : List (String × String × ℚ)) (s : String) :
    outWeight (e :: es) s = (if e.1 = s then e.2.2 else 0) + outWeight es s := by
  by_cases h : e.1 = s <;> simp [outWeight, outEdges, h]

theorem outWeight_append (es1 es2 : List (String × String × ℚ)) (s : String) :
    outWeight (es1 ++ es2) s = outWeight es1 s + outWeight es2 s := by
  simp [outWeight, outEdges, List.filter_append]

theorem outWeight_map_src (p s : String) (l : List (String × ℚ)) (h : p ≠ s) :
    outWeight (l.map (fun sw => (p, sw.1, sw.2))) s = 0 := by
  induction l with
  | nil => simp [outWeight, outEdges]
  | cons sw t ih =>
      simp only [List.map_cons]
      rw [outWeight_cons]
      simp [h, ih]

theorem wsum_cons (kv : String × ℚ) (t : List (String × ℚ)) :
    wsum (kv :: t) = kv.2 + wsum t := by
  simp [wsum]

theorem outWeight_map_src_self (p : String) (l : List (String × ℚ)) :
    outWeight (l.map (fun sw => (p, sw.1, sw.2))) p = wsum l := by
  induction l with
  | nil => simp [outWeight, outEdges, wsum]
  | cons sw t ih =>
      simp only [List.map_cons]
      rw [outWeight_cons, wsum_cons, ih]
      simp

theorem treeSpec_src (shortP : List (String × List (String × ℚ)))
    (pP : List (String × ℚ)) (e : String × String × ℚ)
    (he : e ∈ treeSpec shortP pP) : e.1 = "Root" ∨ e.1 ∈ keys pP := by
  induction pP with
  | nil => simp [treeSpec] at he
  | cons pw t ih =>
      simp only [treeSpec, List.mem_cons, List.mem_append] at he
      rcases he with he | he | he
      · left; rw [he]
      · obtain ⟨sw, _, heq⟩ := List.mem_map.mp he
        right
        rw [← heq]
        simp
      · rcases ih he with h | h
        · left; exact h
        · right; simp [h]

theorem treeSpec_outEdges_nil (shortP : List (String × List (String × ℚ)))
    (pP : List (String × ℚ)) (s : String)
    (hs1 : s ≠ "Root") (hs2 : s ∉ keys pP) :
    outEdges (treeSpec shortP pP) s = [] := by
  apply List.filter_eq_nil_iff.mpr
  intro e he
  rcases treeSpec_src shortP pP e he with h | h
  · have hns : ("Root" : String) ≠ s := fun hc => hs1 hc.symm
    simp [h, hns]
  · have : e.1 ≠ s := fun hc => hs2 (hc ▸ h)
    simp [this]

theorem treeSpec_outWeight_root (shortP : List (String × List (String × ℚ)))
    (pP : List (String × ℚ)) (hroot : ("Root") ∉ keys pP) :
    outWeight (treeSpec shortP pP) ("Root") = wsum pP := by
  induction pP with
  | nil => simp [treeSpec, outWeight, outEdges, wsum]
  | cons pw t ih =>
      simp only [keys_cons, List.mem_cons] at hroot
      push_neg at hroot
      have hpw : pw.1 ≠ "Root" := fun hc => hroot.1 hc.symm
      rw [show treeSpec shortP (pw :: t)
            = (("Root"), pw.1, pw.2)
                :: (((alookup shortP pw.1).getD []).map (fun sw => (pw.1, sw.1, sw.2))
                    ++ treeSpec shortP t) from rfl]
      rw [outWeight_cons, outWeight_append,
        outWeight_map_src pw.1 ("Root") _ hpw, ih hroot.2, wsum_cons]
      simp

theorem treeSpec_outWeight_proj (shortP : List (String × List (String × ℚ)))
    (pP : List (String × ℚ)) (p : String) (l : List (String × ℚ))
    (hroot : ("Root") ∉ keys pP) (hnd : (keys pP).Nodup)
    (hp : p ∈ keys pP) (hl : alookup shortP p = some l) :
    outWeight (treeSpec shortP pP) p = wsum l := by
  induction pP with
  | nil => simp at hp
  | cons pw t ih =>
      simp only [keys_cons, List.mem_cons] at hroot hp
      push_neg at hroot
      rw [keys_cons, List.nodup_cons] at hnd
      rw [show treeSpec shortP (pw :: t)
            = (("Root"), pw.1, pw.2)
                :: (((alookup shortP pw.1).getD []).map (fun sw => (pw.1, sw.1, sw.2))
                    ++ treeSpec shortP t) from rfl]
      rw [outWeight_cons, outWeight_append]
      rcases hp with hp1 | hp2
      · rw [hp1] at hl ⊢
        rw [hl, Option.getD_some]
        have hzero : outWeight (treeSpec shortP t) pw.1 = 0 := by
          have hnil := treeSpec_outEdges_nil shortP t pw.1
            (fun hc => hroot.1 hc.symm) hnd.1
          simp [outWeight, hnil]
        rw [outWeight_map_src_self pw.1 l, hzero]
        have hnr : ¬ (("Root" : String) = pw.1) := hroot.1
        simp [hnr]
      · have hp2root : p ≠ "Root" := fun hc => hroot.2 (hc ▸ hp2)
        have hpwp : pw.1 ≠ p := fun hc => hnd.1 (hc ▸ hp2)
        rw [outWeight_map_src pw.1 p _ hpwp, ih hroot.2 hnd.2 hp2]
        have : ¬ ("Root" = p) := fun hc => hp2root hc.symm
        simp [this]

/-- Edge list the two-stage construction produces when no
deduplication fires: one Root edge per key of SHORTAGE_Q, weighted by
the SHORTAGE_P lookup. -/
def twoSpec (shortageP : List (String × ℚ)) :
    List (String × ℚ) → List (String × String × ℚ)
  | [] => []
  | sq :: t => (("Root"), sq.1, (alookup shortageP sq.1).getD 0) :: twoSpec shortageP t

theorem twoStageTreeGo_eq (sP2 : List (String × ℚ)) (sQ : List (String × ℚ))
    (es : List (String × String × ℚ))
    (hnd : (keys sQ).Nodup)
    (hlook : ∀ k ∈ keys sQ, (alookup sP2 k).isSome = true)
    (hacc : ∀ e ∈ es, ¬(e.1 = "Root" ∧ e.2.1 ∈ keys sQ)) :
    twoStageTreeGo sP2 sQ es = some (es ++ twoSpec sP2 sQ) := by
  induction sQ generalizing es with
  | nil => simp [twoStageTreeGo, twoSpec]
  | cons sq t ih =>
      rw [keys_cons, List.nodup_cons] at hnd
      have h1 : (alookup sP2 sq.1).isSome = true :=
        hlook sq.1 (by simp)
      obtain ⟨w, hw⟩ := Option.isSome_iff_exists.mp h1
      have hstep : addEdge es ("Root") sq.1 w = es ++ [(("Root"), sq.1, w)] := by
        apply addEdge_not_mem
        intro e he hc
        exact hacc e he ⟨hc.1, by simp [hc.2]⟩
      have hrec : twoStageTreeGo sP2 t (es ++ [(("Root"), sq.1, w)])
          = some ((es ++ [(("Root"), sq.1, w)]) ++ twoSpec sP2 t) := by
        apply ih
        · exact hnd.2
        · intro k hk
          exact hlook k (by simp [hk])
        · intro e he hc
          rcases List.mem_append.mp he with he1 | he2
          · exact hacc e he1 ⟨hc.1, by simp [hc.2]⟩
          · have heq : e = (("Root"), sq.1, w) := by simpa using he2
            rw [heq] at hc
            exact hnd.1 hc.2
      have hshift : twoStageTreeGo sP2 (sq :: t) es
          = twoStageTreeGo sP2 t (addEdge es ("Root") sq.1 w) := by
        simp only [twoStageTreeGo, hw]
      rw [hshift, hstep, hrec]
      simp [twoSpec, hw]

theorem twoSpec_outWeight_root (sP2 : List (String × ℚ)) (sQ : List (String × ℚ)) :
    outWeight (twoSpec sP2 sQ) ("Root")
      = ((keys sQ).map (fun k => (alookup sP2 k).getD 0)).sum := by
  induction sQ with
  | nil => simp [twoSpec, outWeight, outEdges]
  | cons sq t ih =>
      rw [show twoSpec sP2 (sq :: t)
            = (("Root"), sq.1, (alookup sP2 sq.1).getD 0) :: twoSpec sP2 t from rfl]
      rw [outWeight_cons, ih]
      simp

theorem twoSpec_outEdges_nil (sP2 : List (String × ℚ)) (sQ : List (String × ℚ))
    (s : String) (hs : s ≠ "Root") :
    outEdges (twoSpec sP2 sQ) s = [] := by
  induction sQ with
  | nil => simp [twoSpec, outEdges]
  | cons sq t ih =>
      rw [show twoSpec sP2 (sq :: t)
            = (("Root"), sq.1, (alookup sP2 sq.1).getD 0) :: twoSpec sP2 t from rfl]
      have hns : ¬ (("Root" : String) = s) := fun hc => hs hc.symm
      simp [outEdges, List.filter_cons, hns] at ih ⊢
      exact ih

/-- Claim C7, amended.  For the three-stage scenario-tree callback (the
construction is identical in the three-stage scenario and three-stage
stochastic files): if the projection names are distinct, none of them
is the reserved node name Root, each projection has a SHORTAGE_P table
with distinct keys summing to 1, and PROJECTION_P sums to 1, then every
non-leaf node of the returned graph has outgoing weight exactly 1.  For
the two-stage callback: if the SHORTAGE_Q keys are distinct, each has a
SHORTAGE_P entry, and the SHORTAGE_P values at the SHORTAGE_Q keys sum
to 1, then every non-leaf node has outgoing weight exactly 1.  (The
unamended claim fails when a projection is itself named Root, and for
the two-stage model when SHORTAGE_P carries keys outside SHORTAGE_Q.) -/
theorem c7_tree_weights_amended
    (pP : List (String × ℚ)) (sP : List (String × List (String × ℚ)))
    (es : List (String × String × ℚ))
    (sQ sP2 : List (String × ℚ)) (es2 : List (String × String × ℚ)) :
    (((keys pP).Nodup ∧ ("Root") ∉ keys pP ∧
      (∀ p ∈ keys pP, ∃ l, alookup sP p = some l ∧ (keys l).Nodup ∧ wsum l = 1) ∧
      wsum pP = 1 ∧ threeStageTree pP sP = some es →
      ∀ s, outEdges es s ≠ [] → outWeight es s = 1)) ∧
    (((keys sQ).Nodup ∧ (∀ k ∈ keys sQ, (alookup sP2 k).isSome = true) ∧
      ((keys sQ).map (fun k => (alookup sP2 k).getD 0)).sum = 1 ∧
      twoStageTree sQ sP2 = some es2 →
      ∀ s, outEdges es2 s ≠ [] → outWeight es2 s = 1)) := by
  constructor
  · rintro ⟨hnd, hroot, hlook, hw, hbuild⟩ s hnl
    have hlook2 : ∀ p ∈ keys pP, ∃ l, alookup sP p = some l ∧ (keys l).Nodup :=
      fun p hp => (hlook p hp).imp (fun l hl => ⟨hl.1, hl.2.1⟩)
    have hchar := threeStageTreeGo_eq sP pP [] hnd hroot hlook2
      (by intro e he; simp at he)
    rw [threeStageTree, hchar] at hbuild
    have hes : es = treeSpec sP pP := by simpa using hbuild.symm
    subst hes
    by_cases hs : s = "Root"
    · subst hs
      rw [treeSpec_outWeight_root sP pP hroot]
      exact hw
    · by_cases hmem : s ∈ keys pP
      · obtain ⟨l, hl, _, hwl⟩ := hlook s hmem
        rw [treeSpec_outWeight_proj sP pP s l hroot hnd hmem hl]
        exact hwl
      · exact absurd (treeSpec_outEdges_nil sP pP s hs hmem) hnl
  · rintro ⟨hnd, hlook, hw, hbuild⟩ s hnl
    have hchar := twoStageTreeGo_eq sP2 sQ [] hnd hlook
      (by intro e he; simp at he)
    rw [twoStageTree, hchar] at hbuild
    have hes : es2 = twoSpec sP2 sQ := by simpa using hbuild.symm
    subst hes
    by_cases hs : s = "Root"
    · subst hs
      rw [twoSpec_outWeight_root]
      exact hw
    · exact absurd (twoSpec_outEdges_nil sP2 sQ s hs) hnl

/-- Projection table of the C7 witness. -/
def c7WPP : List (String × ℚ) := [(("P1"), 1/2), (("P2"), 1/2)]

/-- Shortage tables of the C7 witness. -/
def c7WSP : List (String × List (String × ℚ)) :=
  [(("P1"), [(("S1"), 1)]), (("P2"), [(("S2"), 1/2), (("S3"), 1/2)])]

/-- Edge list built by the three-stage callback on the C7 witness data. -/
def c7Es : List (String × String × ℚ) :=
  [(("Root"), ("P1"), 1/2), (("P1"), ("S1"), 1), (("Root"), ("P2"), 1/2),
   (("P2"), ("S2"), 1/2), (("P2"), ("S3"), 1/2)]

/-- Witness for the amended claim C7: concrete well-formed probability
tables for both tree builders, on which every non-leaf node (Root and
the projection P2 for the three-stage tree; Root for the two-stage
tree) has outgoing weight 1. -/
theorem c7_tree_weights_amended_witness :
    threeStageTree c7WPP c7WSP = some c7Es ∧
    outEdges c7Es ("Root") ≠ [] ∧ outWeight c7Es ("Root") = 1 ∧
    outEdges c7Es ("P2") ≠ [] ∧ outWeight c7Es ("P2") = 1 ∧
    twoStageTree [(("A"), (5:ℚ))] [(("A"), (1:ℚ))]
      = some [(("Root"), ("A"), 1)] ∧
    outWeight [(("Root"), ("A"), (1:ℚ))] ("Root") = 1 := by
  have hbuild : threeStageTree c7WPP c7WSP = some c7Es := by rfl
  have hbuild2 : twoStageTree [(("A"), (5:ℚ))] [(("A"), (1:ℚ))]
      = some [(("Root"), ("A"), 1)] := by rfl
  have h3 : ∀ p ∈ keys c7WPP,
      ∃ l, alookup c7WSP p = some l ∧ (keys l).Nodup ∧ wsum l = 1 := by
    intro p hp
    simp only [c7WPP, keys_cons, keys_nil, List.mem_cons,
      List.not_mem_nil, or_false] at hp
    rcases hp with hp | hp
    · exact hp ▸ ⟨[(("S1"), 1)], by rfl, by simp, by norm_num [wsum]⟩
    · exact hp ▸ ⟨[(("S2"), 1/2), (("S3"), 1/2)], by rfl,
        by simp [String.reduceEq], by norm_num [wsum]⟩
  have hA := (c7_tree_weights_amended c7WPP c7WSP c7Es
      [(("A"), (5:ℚ))] [(("A"), (1:ℚ))] [(("Root"), ("A"), 1)]).1
    ⟨by simp [c7WPP, String.reduceEq], by simp [c7WPP, String.reduceEq],
     h3, by norm_num [wsum, c7WPP], hbuild⟩
  have hB := (c7_tree_weights_amended c7WPP c7WSP c7Es
      [(("A"), (5:ℚ))] [(("A"), (1:ℚ))] [(("Root"), ("A"), 1)]).2
    ⟨by simp, by simp [alookup], by norm_num [alookup, String.reduceEq], hbuild2⟩
  have hnlRoot : outEdges c7Es ("Root") ≠ [] := by
    simp [c7Es, outEdges, String.reduceEq]
  have hnlP2 : outEdges c7Es ("P2") ≠ [] := by
    simp [c7Es, outEdges, String.reduceEq]
  have hnlRoot2 : outEdges [(("Root"), ("A"), (1:ℚ))] ("Root") ≠ [] := by
    simp [outEdges]
  exact ⟨hbuild, hnlRoot, hA ("Root") hnlRoot, hnlP2, hA ("P2") hnlP2,
    hbuild2, hB ("Root") hnlRoot2⟩
